import Mathlib

/-!
Verification of the orchestration core of `chatgpt_web_automator`.

Shallow embedding of:
* `src/utils/errors.py` — the error classifier (`detect_error`, `_canonical`,
  `_matches_exact`, the phrase sets and `_MAX_ERROR_CHARS`);
* `src/orchestrator/browser_session.py` — `BrowserSession.ask`, the
  retry loop around the automation driver;
* `src/orchestrator/browser_pool.py` — `BrowserSessionPool` (lazy
  double-checked creation, delegation arity);
* `src/automator/web_automator.py` — `_wait_stream_finished`, the
  completion-detection polling loop;
* `src/utils/chat_backend.py` — `_content_text` and
  `ChatBackendClient.wait_for_completion`.

Strings are modelled over ASCII-faithful versions of the Python string
operations actually used (`strip`, `lower`, `rstrip(".! ")`, `len`,
membership in a literal phrase set).  Wall-clock instants are modelled as
natural numbers read from a monotone clock.
-/

namespace Errors

/-- ASCII whitespace as recognised by Python's `str.strip()` with no
arguments: space, tab, newline, carriage return, vertical tab, form feed. -/
def pyIsSpace (c : Char) : Bool :=
  c = ' ' || c = '\t' || c = '\n' || c = '\r' || c = '\x0b' || c = '\x0c'

/-- Python `s.strip()`: drop leading and trailing whitespace. -/
def pyStrip (s : String) : String :=
  ⟨((s.data.dropWhile pyIsSpace).reverse.dropWhile pyIsSpace).reverse⟩

/-- Python `s.lower()` (ASCII case folding). -/
def pyLower (s : String) : String :=
  ⟨s.data.map Char.toLower⟩

/-- The trailing characters removed by `_canonical`'s `rstrip(".! ")`. -/
def isTrailPunct (c : Char) : Bool :=
  c = '.' || c = '!' || c = ' '

/-- Python `s.rstrip(".! ")`: drop trailing dots, bangs and spaces. -/
def pyRstripPunct (s : String) : String :=
  ⟨(s.data.reverse.dropWhile isTrailPunct).reverse⟩

/-- `ErrorType` from `src/utils/errors.py`: categorisation of assistant
failures emitted by the ChatGPT UI. -/
inductive ErrorType where
  | NONE
  | NETWORK
  | LENGTH
  | GENERIC
deriving DecidableEq, Repr

/-- `_NETWORK_PATTERNS`: canonical network-error bubble phrases. -/
def NETWORK_PATTERNS : List String :=
  ["a network error occurred", "network error"]

/-- `_LENGTH_PATTERNS`: canonical too-long bubble phrases. -/
def LENGTH_PATTERNS : List String :=
  ["the message you submitted was too long", "message too long"]

/-- `_MAX_ERROR_CHARS`: genuine error bubbles are concise; anything longer
is treated as a normal assistant reply. -/
def MAX_ERROR_CHARS : Nat := 180

/-- `_canonical(text)`: `text.strip().lower().rstrip(".! ")`. -/
def canonical (text : String) : String :=
  pyRstripPunct (pyLower (pyStrip text))

/-- `_matches_exact(text, patterns)`: `_canonical(text) in patterns`. -/
def matches_exact (text : String) (patterns : List String) : Bool :=
  patterns.contains (canonical text)

/-- `detect_error(chunks)` from `src/utils/errors.py`.  Empty chunks are
`GENERIC`; otherwise only the final chunk is considered: long replies are
`NONE`, then exact matches against the two curated phrase sets. -/
def detect_error (chunks : List String) : ErrorType :=
  if chunks.isEmpty then ErrorType.GENERIC
  else
    let last : String := pyStrip (chunks.getLastD "")
    if MAX_ERROR_CHARS < last.length then ErrorType.NONE
    else if matches_exact last LENGTH_PATTERNS then ErrorType.LENGTH
    else if matches_exact last NETWORK_PATTERNS then ErrorType.NETWORK
    else ErrorType.NONE

end Errors

namespace Session

open Errors

/-- What one loop iteration of `BrowserSession.ask` observes from the
automation driver: `open_new_chat` raises, `send_message` raises, or
`send_message` returns a list of chunk strings. -/
inductive AttemptOutcome where
  | raiseOnOpen
  | raiseOnSend
  | chunks (cs : List String)
deriving DecidableEq, Repr

/-- A call made to the `ChatGPTWebAutomator` driver by the ask loop. -/
inductive DriverCall where
  | openNewChat (model : Option String)
  | sendMessage (prompt : String)
deriving DecidableEq, Repr

/-- The observable outcome of `BrowserSession.ask`: a normal return of the
streamed chunks, a terminal-error return (the literal Python list
`["error: ..."]`), or the `NameError` the `except` handler raises when the
local `chunks` has never been bound. -/
inductive AskOutcome where
  | success (cs : List String)
  | errorReturn (ret : List String)
  | raisedNameError
deriving DecidableEq, Repr

/-- The `except Exception` handler of `BrowserSession.ask`:
`last_chunk = chunks[-1] if chunks else "network error"` followed by
`return [f"error: \x7blast_chunk\x7d"]`.  `bound` is the value of the local
`chunks` from the last completed `send_message`, `none` when that local
was never assigned (in which case evaluating it raises `NameError`). -/
def exceptOutcome (bound : Option (List String)) : AskOutcome :=
  match bound with
  | none => AskOutcome.raisedNameError
  | some cs =>
      AskOutcome.errorReturn
        ["error: " ++ (if cs.isEmpty then "network error" else cs.getLastD "")]

/-- `f"error: \x7blast_chunk or fallback\x7d"`: the terminal-error message built
from the last chunk, falling back to the lower-cased error-type name when
the last chunk is empty or absent. -/
def terminalMsg (cs : List String) (fallback : String) : String :=
  "error: " ++ (if cs.getLastD "" = "" then fallback else cs.getLastD "")

/-- The `while True` loop of `BrowserSession.ask`, one recursive call per
iteration.  `beh i` is what the driver does on attempt number `i`
(`open_new_chat` then `send_message`); `maxRetries` is
`_MAX_NETWORK_ERROR_RETRIES`; `bound` carries the Python local `chunks`
(bound only by a completed `send_message`); `attempts` is the loop's
retry counter.  Returns the ask outcome together with the trace of driver
calls issued. -/
def askLoop (beh : Nat → AttemptOutcome) (maxRetries : Nat) (prompt : String)
    (model : Option String) (bound : Option (List String)) (attempts : Nat) :
    AskOutcome × List DriverCall :=
  match beh attempts with
  | AttemptOutcome.raiseOnOpen =>
      (exceptOutcome bound, [DriverCall.openNewChat model])
  | AttemptOutcome.raiseOnSend =>
      (exceptOutcome bound, [DriverCall.openNewChat model, DriverCall.sendMessage prompt])
  | AttemptOutcome.chunks cs =>
      let calls := [DriverCall.openNewChat model, DriverCall.sendMessage prompt]
      match detect_error cs with
      | ErrorType.LENGTH => (AskOutcome.errorReturn [terminalMsg cs "length"], calls)
      | ErrorType.GENERIC => (AskOutcome.errorReturn [terminalMsg cs "generic"], calls)
      | ErrorType.NETWORK =>
          if maxRetries ≠ 0 ∧ attempts < maxRetries then
            let r := askLoop beh maxRetries prompt model (some cs) (attempts + 1)
            (r.1, calls ++ r.2)
          else
            (AskOutcome.errorReturn [terminalMsg cs "network"], calls)
      | ErrorType.NONE => (AskOutcome.success cs, calls)
termination_by maxRetries - attempts
decreasing_by omega

/-- `BrowserSession.ask(prompt, model)`: the loop entered with
`attempts = 0` and the local `chunks` unbound. -/
def ask (beh : Nat → AttemptOutcome) (maxRetries : Nat) (prompt : String)
    (model : Option String) : AskOutcome × List DriverCall :=
  askLoop beh maxRetries prompt model none 0

end Session

namespace Detector

open Errors

/-- What one iteration of `_wait_stream_finished` observes from the DOM:
whether an error bubble is visible, whether the stop button is present
(`streaming_busy`), whether reading the assistant blocks raised
`StaleElementReferenceException`, and the joined text snapshot. -/
structure TickObs where
  errorVisible : Bool
  busy : Bool
  staleRead : Bool
  snapshot : String
deriving DecidableEq, Repr

/-- The loop-carried locals of `_wait_stream_finished`. -/
structure DetectorState where
  lastSnapshot : String
  stableSince : Nat
deriving DecidableEq, Repr

/-- Outcome of one loop iteration: keep polling with updated locals, exit
because an error bubble is visible (the early `break` that surfaces the
error), or exit by declaring stream completion (the final `break`). -/
inductive StepResult where
  | keepPolling (st : DetectorState)
  | errorAbort
  | completed
deriving DecidableEq, Repr

/-- The trailing glyph of in-progress streamed text (`joined.endswith("▍")`). -/
def CURSOR_MARK : String := "▍"

/-- Python `s.endswith(suffix)`. -/
def pyEndsWith (s suffix : String) : Bool :=
  suffix.data.isSuffixOf s.data

/-- One iteration of the `while True` loop of `_wait_stream_finished`
(`src/automator/web_automator.py`), with `now` the monotonic-clock sample
of this tick and `settle` the configured `stream_settle` duration:
error bubble → break (surface error); stale read → sleep and retry with
locals unchanged; blank snapshot → reset stability timer; busy, trailing
cursor, or changed snapshot → reset stability timer; stable for at least
`settle` → declare completion; else keep waiting. -/
def streamStep (settle : Nat) (now : Nat) (st : DetectorState) (o : TickObs) :
    StepResult :=
  if o.errorVisible then StepResult.errorAbort
  else if o.staleRead then StepResult.keepPolling st
  else if pyStrip o.snapshot = "" then StepResult.keepPolling ⟨o.snapshot, now⟩
  else if o.busy || pyEndsWith o.snapshot CURSOR_MARK || o.snapshot != st.lastSnapshot then
    StepResult.keepPolling ⟨o.snapshot, now⟩
  else if settle ≤ now - st.stableSince then StepResult.completed
  else StepResult.keepPolling st

/-- How a whole run of the polling loop ends over a finite observation
trace: still polling when the trace runs out, aborted on an error bubble,
or completed. -/
inductive WaitOutcome where
  | stillPolling
  | errorAborted
  | completed
deriving DecidableEq, Repr

/-- Run `_wait_stream_finished`'s loop over a trace of timestamped
observations. -/
def runStreamWait (settle : Nat) (st : DetectorState) :
    List (Nat × TickObs) → WaitOutcome
  | [] => WaitOutcome.stillPolling
  | (now, o) :: rest =>
      match streamStep settle now st o with
      | StepResult.errorAbort => WaitOutcome.errorAborted
      | StepResult.completed => WaitOutcome.completed
      | StepResult.keepPolling st2 => runStreamWait settle st2 rest

end Detector

namespace Backend

open Errors

/-- The `content` object of a backend message, by `content_type`:
`text` (with its `parts`), `execution_output` (with its `text`),
`thoughts`, or anything else (carrying its Python `str()` rendering). -/
inductive MsgContent where
  | text (parts : List String)
  | executionOutput (t : String)
  | thoughts
  | other (rendered : String)
deriving DecidableEq, Repr

/-- A backend message: `author.role`, `status`, and `content` (each
possibly absent). -/
structure Message where
  role : Option String
  status : Option String
  content : Option MsgContent
deriving DecidableEq, Repr

/-- A node of the conversation `mapping`; its `message` field may be null. -/
structure Node where
  message : Option Message
deriving DecidableEq, Repr

/-- `_content_text(msg)` from `src/utils/chat_backend.py`: join the parts
of plain text, take execution output text, always empty for interim
`thoughts`, and the stripped `str()` rendering otherwise (a missing
`content` key defaults to the empty dict, rendered `"\x7b\x7d"`). -/
def contentText (m : Message) : String :=
  match m.content with
  | some (MsgContent.text parts) => pyStrip (String.intercalate "\n" parts)
  | some (MsgContent.executionOutput t) => pyStrip t
  | some MsgContent.thoughts => ""
  | some (MsgContent.other rendered) => pyStrip rendered
  | none => pyStrip "\x7b\x7d"

/-- The message used by the poll body: `latest_node.get("message") or \x7b\x7d`. -/
def nodeMsg (node : Node) : Message :=
  node.message.getD ⟨none, none, none⟩

/-- Decision taken by one iteration of `wait_for_completion`'s loop. -/
inductive PollDecision where
  | keepPolling
  | done (text : String)
deriving DecidableEq, Repr

/-- One iteration of `ChatBackendClient.wait_for_completion`'s loop on a
fetch result (`Except.error` models `fetch` raising — network failure,
empty or non-JSON body — which is waited out).  The newest mapping node is
the last inserted one (`next(reversed(mapping.values()))`); an empty
mapping keeps polling; a node whose status is not `finished_successfully`
keeps polling; a finished node is returned only if its author role is
`assistant` and its extracted content is non-empty. -/
def pollStep : Except Unit (List (String × Node)) → PollDecision
  | Except.error _ => PollDecision.keepPolling
  | Except.ok mapping =>
      match mapping.getLast? with
      | none => PollDecision.keepPolling
      | some entry =>
          let msg := nodeMsg entry.2
          if msg.status ≠ some "finished_successfully" then PollDecision.keepPolling
          else if msg.role = some "assistant" ∧ contentText msg ≠ "" then
            PollDecision.done (contentText msg)
          else PollDecision.keepPolling

/-- A sample conversation state whose newest node is an interim
`thoughts` message that has already finished successfully. -/
def sampleThoughtsMapping : List (String × Node) :=
  [("n1", Node.mk (some (Message.mk (some "assistant") (some "finished_successfully")
    (some MsgContent.thoughts))))]

/-- A sample conversation state whose newest node is a finished assistant
text answer. -/
def sampleTextMapping : List (String × Node) :=
  [("n2", Node.mk (some (Message.mk (some "assistant") (some "finished_successfully")
    (some (MsgContent.text ["hello"])))))]

/-- A sample fetch sequence: one failed fetch, then the finished answer. -/
def sampleFetches : List (Except Unit (List (String × Node))) :=
  [Except.error (), Except.ok sampleTextMapping]

/-- `wait_for_completion` over the finite sequence of fetch results seen
before the deadline; `none` models the `TimeoutError` raised when the
deadline passes with no qualifying node. -/
def wait_for_completion : List (Except Unit (List (String × Node))) → Option String
  | [] => none
  | f :: rest =>
      match pollStep f with
      | PollDecision.done t => some t
      | PollDecision.keepPolling => wait_for_completion rest

end Backend

namespace Pool

open Session

/-- Python positional-call compatibility: a call passing `given`
positional arguments to a function with `required` mandatory positional
parameters and `maxPos` positional parameters in total binds iff
`required ≤ given ≤ maxPos`; otherwise the call raises `TypeError`. -/
def pyCallOk (required maxPos given : Nat) : Bool :=
  required ≤ given && given ≤ maxPos

/-- `BrowserSession.ask(self, prompt, model=None)`
(`src/orchestrator/browser_session.py:37`): one required positional
parameter beyond `self`. -/
def sessionAskRequired : Nat := 1

/-- `BrowserSession.ask(self, prompt, model=None)`: two positional
parameters beyond `self` in total — there is no `timeout_seconds`
parameter. -/
def sessionAskMaxPos : Nat := 2

/-- `BrowserSessionPool.ask` (`src/orchestrator/browser_pool.py:46`)
forwards `session.ask(prompt, model, timeout_seconds)`: three positional
arguments. -/
def poolAskGivenArgs : Nat := 3

/-- What `BrowserSessionPool.ask(prompt, model, timeout_seconds)` does:
either the response dict (session id plus the delegated answer) or an
uncaught `TypeError` raised by the delegation call itself. -/
inductive PoolAskResult where
  | ok (browserId : String) (answer : AskOutcome)
  | typeError
deriving Repr

/-- `BrowserSessionPool.ask(prompt, model, timeout_seconds)`: ensure the
singleton session exists, then delegate `session.ask(prompt, model,
timeout_seconds)`.  The delegation binds the three positional arguments
against `BrowserSession.ask`'s parameters; an arity mismatch raises
`TypeError` before any browser interaction happens. -/
def poolAsk (beh : Nat → AttemptOutcome) (maxRetries : Nat) (browserId : String)
    (prompt : String) (model : Option String) (timeoutSeconds : Nat) : PoolAskResult :=
  if pyCallOk sessionAskRequired sessionAskMaxPos poolAskGivenArgs then
    PoolAskResult.ok browserId (Session.ask beh maxRetries prompt model).1
  else
    PoolAskResult.typeError

/-- Program counter of one thread running
`BrowserSessionPool._ensure_session` (`src/orchestrator/browser_pool.py`):
`start` — about to execute the unsynchronized `if self._session is None`;
`waiting` — saw `None`, waiting on `self._create_lock`;
`locked` — holds the lock, about to re-check `self._session is None`;
`creating` — re-check saw `None`, about to run `BrowserSession()` and
assign; `releasing` — with-block body finished, about to release the
lock; `returned` — past the `if`, about to `return self._session`;
`done s` — returned session `s` and delegated this call to it. -/
inductive TPC where
  | start
  | waiting
  | locked
  | creating
  | releasing
  | returned
  | done (sid : Nat)
deriving DecidableEq, Repr

/-- Shared state of the pool plus the program counters of the racing
threads: the lazily created session reference (`self._session`, holding
the id of the constructed session), the holder of `self._create_lock`,
the number of `BrowserSession()` constructions so far (each construction
yields the fresh id `constructions`), and one counter per thread. -/
structure PoolState where
  session : Option Nat
  lockHeld : Option Nat
  constructions : Nat
  threads : List TPC
deriving DecidableEq, Repr

/-- Interleaving semantics of `_ensure_session` under concurrent callers:
each step is one atomic action of one thread (a single shared read, a
lock acquisition/release, or the construct-and-assign performed while
holding the lock). -/
inductive PoolStep : PoolState → PoolState → Prop where
  | fastPath (st : PoolState) (i s : Nat) :
      st.threads.get? i = some TPC.start →
      st.session = some s →
      PoolStep st { st with threads := st.threads.set i TPC.returned }
  | slowEnter (st : PoolState) (i : Nat) :
      st.threads.get? i = some TPC.start →
      st.session = none →
      PoolStep st { st with threads := st.threads.set i TPC.waiting }
  | acquire (st : PoolState) (i : Nat) :
      st.threads.get? i = some TPC.waiting →
      st.lockHeld = none →
      PoolStep st { st with lockHeld := some i, threads := st.threads.set i TPC.locked }
  | recheckNone (st : PoolState) (i : Nat) :
      st.threads.get? i = some TPC.locked →
      st.lockHeld = some i →
      st.session = none →
      PoolStep st { st with threads := st.threads.set i TPC.creating }
  | recheckSome (st : PoolState) (i s : Nat) :
      st.threads.get? i = some TPC.locked →
      st.lockHeld = some i →
      st.session = some s →
      PoolStep st { st with threads := st.threads.set i TPC.releasing }
  | construct (st : PoolState) (i : Nat) :
      st.threads.get? i = some TPC.creating →
      st.lockHeld = some i →
      PoolStep st { st with session := some st.constructions,
                            constructions := st.constructions + 1,
                            threads := st.threads.set i TPC.releasing }
  | release (st : PoolState) (i : Nat) :
      st.threads.get? i = some TPC.releasing →
      st.lockHeld = some i →
      PoolStep st { st with lockHeld := none, threads := st.threads.set i TPC.returned }
  | ret (st : PoolState) (i s : Nat) :
      st.threads.get? i = some TPC.returned →
      st.session = some s →
      PoolStep st { st with threads := st.threads.set i (TPC.done s) }

/-- Process start: no session, lock free, no constructions, `n` callers
about to run `_ensure_session`. -/
def initState (n : Nat) : PoolState :=
  ⟨none, none, 0, List.replicate n TPC.start⟩

/-- States the pool can reach from process start with `n` concurrent
callers. -/
def Reachable (n : Nat) (st : PoolState) : Prop :=
  Relation.ReflTransGen PoolStep (initState n) st

/-- A fully-finished two-caller state: the session was constructed once
and both callers were delegated to session `0`. -/
def finalPoolState : PoolState := ⟨some 0, none, 1, [TPC.done 0, TPC.done 0]⟩

/-- Safety invariant of the double-checked locking protocol. -/
structure PoolInv (st : PoolState) : Prop where
  lockOwner : ∀ i, (st.threads.get? i = some TPC.locked ∨
      st.threads.get? i = some TPC.creating ∨
      st.threads.get? i = some TPC.releasing) → st.lockHeld = some i
  creatingNone : ∀ i, st.threads.get? i = some TPC.creating → st.session = none
  sessNone : st.session = none → st.constructions = 0
  sessSome : ∀ s, st.session = some s → s = 0 ∧ st.constructions = 1
  doneSess : ∀ i s, st.threads.get? i = some (TPC.done s) → st.session = some s

end Pool


namespace Errors

lemma dropWhile_len_le (p : Char → Bool) (l : List Char) :
    (l.dropWhile p).length ≤ l.length := by
  induction l with
  | nil => simp
  | cons a l ih =>
      by_cases h : p a
      · simp [List.dropWhile_cons, h]; omega
      · simp [List.dropWhile_cons, h]

lemma pyStrip_length_le (s : String) : (pyStrip s).length ≤ s.length := by
  have h1 := dropWhile_len_le pyIsSpace s.data
  have h2 := dropWhile_len_le pyIsSpace (s.data.dropWhile pyIsSpace).reverse
  simp only [pyStrip, String.length]
  simp only [List.length_reverse] at *
  omega

lemma pyStrip_eq_rdrop (s : String) :
    pyStrip s = ⟨List.rdropWhile pyIsSpace (s.data.dropWhile pyIsSpace)⟩ := by
  simp [pyStrip, List.rdropWhile]

lemma dropWhile_of_prefix {p : Char → Bool} {A B : List Char} (hBA : B <+: A)
    (hA : A.dropWhile p = A) : B.dropWhile p = B := by
  rcases B with _ | ⟨b, B'⟩
  · simp
  · rcases hBA with ⟨t, ht⟩
    by_cases h : p b
    · exfalso
      rw [← ht, List.cons_append, List.dropWhile_cons_of_pos h] at hA
      have h1 := dropWhile_len_le p (B' ++ t)
      rw [hA] at h1
      simp [List.length_cons] at h1
    · simp [List.dropWhile_cons_of_neg h]

lemma pyStrip_idem (s : String) : pyStrip (pyStrip s) = pyStrip s := by
  rw [pyStrip_eq_rdrop s, pyStrip_eq_rdrop]
  have hdw : (List.rdropWhile pyIsSpace (s.data.dropWhile pyIsSpace)).dropWhile pyIsSpace
      = List.rdropWhile pyIsSpace (s.data.dropWhile pyIsSpace) :=
    dropWhile_of_prefix (List.rdropWhile_prefix _ _) (List.dropWhile_idempotent _ _)
  show String.mk _ = String.mk _
  congr 1
  rw [hdw, List.rdropWhile_idempotent]

lemma canonical_pyStrip (s : String) : canonical (pyStrip s) = canonical s := by
  unfold canonical
  rw [pyStrip_idem]

end Errors

namespace Errors

lemma detect_error_cons (x : String) (l : List String) :
    detect_error (x :: l) =
      (if MAX_ERROR_CHARS < (pyStrip ((x :: l).getLastD "")).length then ErrorType.NONE
       else if matches_exact (pyStrip ((x :: l).getLastD "")) LENGTH_PATTERNS then ErrorType.LENGTH
       else if matches_exact (pyStrip ((x :: l).getLastD "")) NETWORK_PATTERNS then ErrorType.NETWORK
       else ErrorType.NONE) := rfl

lemma exists_cons_of_ne_nil {fs : List String} (h : fs ≠ []) : ∃ x l, fs = x :: l := by
  cases fs with
  | nil => exact absurd rfl h
  | cons a l => exact ⟨a, l, rfl⟩

/-- C4: for every fragment sequence whose last element canonicalizes
(trim whitespace, lower-case, strip trailing punctuation) to a configured
network-error phrase and whose last element's length is at most the
short-message ceiling, `detect_error` returns `NETWORK`. -/
theorem claim_c4 (fs : List String) (hne : fs ≠ [])
    (hmatch : canonical (fs.getLastD "") ∈ NETWORK_PATTERNS)
    (hlen : (fs.getLastD "").length ≤ MAX_ERROR_CHARS) :
    detect_error fs = ErrorType.NETWORK := by
  obtain ⟨x, l, rfl⟩ := exists_cons_of_ne_nil hne
  have hlt : ¬ (MAX_ERROR_CHARS < (pyStrip ((x :: l).getLastD "")).length) := by
    have := pyStrip_length_le ((x :: l).getLastD "")
    omega
  have hnotlen : matches_exact (pyStrip ((x :: l).getLastD "")) LENGTH_PATTERNS = false := by
    unfold matches_exact
    rw [canonical_pyStrip]
    simp only [NETWORK_PATTERNS, List.mem_cons, List.mem_singleton] at hmatch
    rcases hmatch with h | h | h
    · rw [h]; decide
    · rw [h]; decide
    · exact absurd h (List.not_mem_nil _)
  have hnet : matches_exact (pyStrip ((x :: l).getLastD "")) NETWORK_PATTERNS = true := by
    unfold matches_exact
    rw [canonical_pyStrip]
    simp only [NETWORK_PATTERNS, List.mem_cons, List.mem_singleton] at hmatch
    rcases hmatch with h | h | h
    · rw [h]; decide
    · rw [h]; decide
    · exact absurd h (List.not_mem_nil _)
  rw [detect_error_cons, if_neg hlt, if_neg (by rw [hnotlen]; decide), if_pos hnet]

theorem claim_c4_witness :
    canonical (["A network error occurred."].getLastD "") ∈ NETWORK_PATTERNS ∧
    (["A network error occurred."].getLastD "").length ≤ MAX_ERROR_CHARS ∧
    detect_error ["A network error occurred."] = ErrorType.NETWORK :=
  ⟨by decide, by decide,
    claim_c4 ["A network error occurred."] (by decide) (by decide) (by decide)⟩

set_option maxRecDepth 4000

/-- C5 counterexample: a last element whose raw length (183) exceeds the
short-message ceiling (180) but which consists of leading whitespace
followed by a network-error phrase is classified `NETWORK`, not `NONE`:
the code measures the length of the stripped last chunk, not the raw
chunk. -/
theorem claim_c5_counterexample :
    MAX_ERROR_CHARS < (String.mk (List.replicate 170 ' ') ++ "network error").length ∧
    detect_error [String.mk (List.replicate 170 ' ') ++ "network error"] = ErrorType.NETWORK := by
  constructor
  · decide
  · decide

/-- C5 (amended): for every fragment sequence whose last element, after
stripping surrounding whitespace, exceeds the short-message ceiling in
length, `detect_error` returns `NONE` regardless of the element's phrase
content. -/
theorem claim_c5 (fs : List String) (hne : fs ≠ [])
    (hlen : MAX_ERROR_CHARS < (pyStrip (fs.getLastD "")).length) :
    detect_error fs = ErrorType.NONE := by
  obtain ⟨x, l, rfl⟩ := exists_cons_of_ne_nil hne
  rw [detect_error_cons, if_pos hlen]

theorem claim_c5_witness :
    MAX_ERROR_CHARS <
      (pyStrip ([String.mk ("network".data ++ List.replicate 293 'a')].getLastD "")).length ∧
    detect_error [String.mk ("network".data ++ List.replicate 293 'a')] = ErrorType.NONE :=
  ⟨by decide, claim_c5 [String.mk ("network".data ++ List.replicate 293 'a')] (by decide) (by decide)⟩

/-- C6: for every non-empty fragment sequence `fs`, `detect_error fs`
equals `detect_error` applied to the singleton holding only the last
element of `fs`: classification depends on the last fragment alone. -/
theorem claim_c6 (fs : List String) (hne : fs ≠ []) :
    detect_error fs = detect_error [fs.getLastD ""] := by
  obtain ⟨x, l, rfl⟩ := exists_cons_of_ne_nil hne
  rw [detect_error_cons, detect_error_cons]
  simp

theorem claim_c6_witness :
    detect_error ["a", "b"] = detect_error [["a", "b"].getLastD ""] :=
  claim_c6 ["a", "b"] (by decide)

end Errors

namespace Session

open Errors

lemma askLoop_eq (beh : Nat → AttemptOutcome) (mr : Nat) (p : String)
    (m : Option String) (bound : Option (List String)) (attempts : Nat) :
    askLoop beh mr p m bound attempts =
      match beh attempts with
      | AttemptOutcome.raiseOnOpen => (exceptOutcome bound, [DriverCall.openNewChat m])
      | AttemptOutcome.raiseOnSend =>
          (exceptOutcome bound, [DriverCall.openNewChat m, DriverCall.sendMessage p])
      | AttemptOutcome.chunks cs =>
          let calls := [DriverCall.openNewChat m, DriverCall.sendMessage p]
          match detect_error cs with
          | ErrorType.LENGTH => (AskOutcome.errorReturn [terminalMsg cs "length"], calls)
          | ErrorType.GENERIC => (AskOutcome.errorReturn [terminalMsg cs "generic"], calls)
          | ErrorType.NETWORK =>
              if mr ≠ 0 ∧ attempts < mr then
                let r := askLoop beh mr p m (some cs) (attempts + 1)
                (r.1, calls ++ r.2)
              else (AskOutcome.errorReturn [terminalMsg cs "network"], calls)
          | ErrorType.NONE => (AskOutcome.success cs, calls) := by
  rw [Session.askLoop]

lemma askLoop_eq_open {beh : Nat → AttemptOutcome} {attempts : Nat}
    (hb : beh attempts = AttemptOutcome.raiseOnOpen) (mr : Nat) (p : String)
    (m : Option String) (bound : Option (List String)) :
    askLoop beh mr p m bound attempts = (exceptOutcome bound, [DriverCall.openNewChat m]) := by
  rw [askLoop_eq, hb]

lemma askLoop_eq_send {beh : Nat → AttemptOutcome} {attempts : Nat}
    (hb : beh attempts = AttemptOutcome.raiseOnSend) (mr : Nat) (p : String)
    (m : Option String) (bound : Option (List String)) :
    askLoop beh mr p m bound attempts =
      (exceptOutcome bound, [DriverCall.openNewChat m, DriverCall.sendMessage p]) := by
  rw [askLoop_eq, hb]

lemma askLoop_eq_none {beh : Nat → AttemptOutcome} {attempts : Nat} {cs : List String}
    (hb : beh attempts = AttemptOutcome.chunks cs)
    (hd : detect_error cs = ErrorType.NONE) (mr : Nat) (p : String)
    (m : Option String) (bound : Option (List String)) :
    askLoop beh mr p m bound attempts =
      (AskOutcome.success cs, [DriverCall.openNewChat m, DriverCall.sendMessage p]) := by
  rw [askLoop_eq, hb]
  simp only [hd]

lemma askLoop_eq_length {beh : Nat → AttemptOutcome} {attempts : Nat} {cs : List String}
    (hb : beh attempts = AttemptOutcome.chunks cs)
    (hd : detect_error cs = ErrorType.LENGTH) (mr : Nat) (p : String)
    (m : Option String) (bound : Option (List String)) :
    askLoop beh mr p m bound attempts =
      (AskOutcome.errorReturn [terminalMsg cs "length"],
       [DriverCall.openNewChat m, DriverCall.sendMessage p]) := by
  rw [askLoop_eq, hb]
  simp only [hd]

lemma askLoop_eq_generic {beh : Nat → AttemptOutcome} {attempts : Nat} {cs : List String}
    (hb : beh attempts = AttemptOutcome.chunks cs)
    (hd : detect_error cs = ErrorType.GENERIC) (mr : Nat) (p : String)
    (m : Option String) (bound : Option (List String)) :
    askLoop beh mr p m bound attempts =
      (AskOutcome.errorReturn [terminalMsg cs "generic"],
       [DriverCall.openNewChat m, DriverCall.sendMessage p]) := by
  rw [askLoop_eq, hb]
  simp only [hd]

lemma askLoop_eq_net_retry {beh : Nat → AttemptOutcome} {attempts mr : Nat} {cs : List String}
    (hb : beh attempts = AttemptOutcome.chunks cs)
    (hd : detect_error cs = ErrorType.NETWORK)
    (hc : mr ≠ 0 ∧ attempts < mr) (p : String)
    (m : Option String) (bound : Option (List String)) :
    askLoop beh mr p m bound attempts =
      ((askLoop beh mr p m (some cs) (attempts + 1)).1,
       [DriverCall.openNewChat m, DriverCall.sendMessage p] ++
         (askLoop beh mr p m (some cs) (attempts + 1)).2) := by
  rw [askLoop_eq, hb]
  simp only [hd]
  rw [if_pos hc]

lemma askLoop_eq_net_stop {beh : Nat → AttemptOutcome} {attempts mr : Nat} {cs : List String}
    (hb : beh attempts = AttemptOutcome.chunks cs)
    (hd : detect_error cs = ErrorType.NETWORK)
    (hc : ¬(mr ≠ 0 ∧ attempts < mr)) (p : String)
    (m : Option String) (bound : Option (List String)) :
    askLoop beh mr p m bound attempts =
      (AskOutcome.errorReturn [terminalMsg cs "network"],
       [DriverCall.openNewChat m, DriverCall.sendMessage p]) := by
  rw [askLoop_eq, hb]
  simp only [hd]
  rw [if_neg hc]

lemma detect_none_ne_nil {cs : List String} (h : detect_error cs = ErrorType.NONE) :
    cs ≠ [] := by
  intro hnil
  subst hnil
  simp [detect_error] at h

/-- C2: with retry bound 2 and every attempt's fragments classified
`NETWORK`, `BrowserSession.ask` performs exactly 3 attempts (initial plus
2 retries), each beginning with `open_new_chat` (a fresh conversation),
and then returns a terminal single-element `error: ...` list. -/
theorem claim_c2 (beh : Nat → AttemptOutcome) (prompt : String) (model : Option String)
    (h : ∀ i, i ≤ 2 → ∃ cs, beh i = AttemptOutcome.chunks cs ∧
      detect_error cs = ErrorType.NETWORK) :
    ∃ ret, Session.ask beh 2 prompt model =
      (AskOutcome.errorReturn ret,
       [DriverCall.openNewChat model, DriverCall.sendMessage prompt,
        DriverCall.openNewChat model, DriverCall.sendMessage prompt,
        DriverCall.openNewChat model, DriverCall.sendMessage prompt]) ∧
      ∃ m, ret = ["error: " ++ m] := by
  obtain ⟨cs0, hb0, hd0⟩ := h 0 (by omega)
  obtain ⟨cs1, hb1, hd1⟩ := h 1 (by omega)
  obtain ⟨cs2, hb2, hd2⟩ := h 2 (by omega)
  refine ⟨[terminalMsg cs2 "network"], ?_, ⟨_, rfl⟩⟩
  unfold Session.ask
  rw [askLoop_eq_net_retry hb0 hd0 (by omega),
    askLoop_eq_net_retry hb1 hd1 (by omega),
    askLoop_eq_net_stop hb2 hd2 (by omega)]
  rfl

theorem claim_c2_witness :
    (∀ i, i ≤ 2 → ∃ cs, (fun _ : Nat => AttemptOutcome.chunks ["network error"]) i
        = AttemptOutcome.chunks cs ∧ detect_error cs = ErrorType.NETWORK) ∧
    ∃ ret, Session.ask (fun _ => AttemptOutcome.chunks ["network error"]) 2 "hello" none =
      (AskOutcome.errorReturn ret,
       [DriverCall.openNewChat none, DriverCall.sendMessage "hello",
        DriverCall.openNewChat none, DriverCall.sendMessage "hello",
        DriverCall.openNewChat none, DriverCall.sendMessage "hello"]) ∧
      ∃ m, ret = ["error: " ++ m] :=
  ⟨fun _ _ => ⟨["network error"], rfl, by decide⟩,
   claim_c2 (fun _ => AttemptOutcome.chunks ["network error"]) "hello" none
     (fun _ _ => ⟨["network error"], rfl, by decide⟩)⟩

/-- C3: contrary to the claim, an automation-driver exception during the
open-new-chat or submit steps is not retried.  With retry bound 2, an
exception on the very first attempt makes the handler evaluate the
never-bound local `chunks`, so `ask` raises `NameError` after a single
attempt; an exception on a later attempt returns a terminal error built
from the previous attempt's stale chunks, also without further retries.
Neither path performs the claimed bounded network-class retries before a
terminal generic error. -/
theorem claim_c3_divergence :
    Session.ask (fun _ => AttemptOutcome.raiseOnOpen) 2 "p" none =
      (AskOutcome.raisedNameError, [DriverCall.openNewChat none]) ∧
    Session.ask (fun i => match i with
        | 0 => AttemptOutcome.chunks ["network error"]
        | _ => AttemptOutcome.raiseOnSend) 2 "p" none =
      (AskOutcome.errorReturn ["error: network error"],
       [DriverCall.openNewChat none, DriverCall.sendMessage "p",
        DriverCall.openNewChat none, DriverCall.sendMessage "p"]) := by
  constructor
  · unfold Session.ask
    rw [askLoop_eq_open rfl]
    rfl
  · unfold Session.ask
    rw [askLoop_eq_net_retry rfl (by decide) (by omega), askLoop_eq_send rfl]
    rfl

/-- Invariant of the ask loop used for C10: assuming the driver always
returns chunk lists, a `success` return is non-empty, and every
terminal-error return is a single-element `error: `-prefixed list. -/
lemma askLoop_shape (beh : Nat → AttemptOutcome)
    (h : ∀ i, ∃ cs, beh i = AttemptOutcome.chunks cs) (mr : Nat) (p : String)
    (m : Option String) :
    ∀ fuel attempts bound, mr - attempts ≤ fuel →
    (∀ cs, (askLoop beh mr p m bound attempts).1 = AskOutcome.success cs → cs ≠ []) ∧
    (∀ ret, (askLoop beh mr p m bound attempts).1 = AskOutcome.errorReturn ret →
      ∃ msg, ret = ["error: " ++ msg]) := by
  intro fuel
  induction fuel with
  | zero =>
      intro attempts bound hle
      obtain ⟨cs, hb⟩ := h attempts
      have hc : ¬(mr ≠ 0 ∧ attempts < mr) := by omega
      cases hdet : detect_error cs with
      | NONE =>
          rw [askLoop_eq_none hb hdet]
          refine ⟨fun cs' h' => ?_, fun ret h' => ?_⟩
          · obtain rfl : cs = cs' := by simpa using h'
            exact detect_none_ne_nil hdet
          · simp at h'
      | NETWORK =>
          rw [askLoop_eq_net_stop hb hdet hc]
          refine ⟨fun cs' h' => by simp at h', fun ret h' => ?_⟩
          obtain rfl : [terminalMsg cs "network"] = ret := by simpa using h'
          exact ⟨_, rfl⟩
      | LENGTH =>
          rw [askLoop_eq_length hb hdet]
          refine ⟨fun cs' h' => by simp at h', fun ret h' => ?_⟩
          obtain rfl : [terminalMsg cs "length"] = ret := by simpa using h'
          exact ⟨_, rfl⟩
      | GENERIC =>
          rw [askLoop_eq_generic hb hdet]
          refine ⟨fun cs' h' => by simp at h', fun ret h' => ?_⟩
          obtain rfl : [terminalMsg cs "generic"] = ret := by simpa using h'
          exact ⟨_, rfl⟩
  | succ n ih =>
      intro attempts bound hle
      obtain ⟨cs, hb⟩ := h attempts
      cases hdet : detect_error cs with
      | NONE =>
          rw [askLoop_eq_none hb hdet]
          refine ⟨fun cs' h' => ?_, fun ret h' => ?_⟩
          · obtain rfl : cs = cs' := by simpa using h'
            exact detect_none_ne_nil hdet
          · simp at h'
      | NETWORK =>
          by_cases hc : mr ≠ 0 ∧ attempts < mr
          · rw [askLoop_eq_net_retry hb hdet hc]
            have hrec := ih (attempts + 1) (some cs) (by omega)
            refine ⟨fun cs' h' => hrec.1 cs' (by simpa using h'),
              fun ret h' => hrec.2 ret (by simpa using h')⟩
          · rw [askLoop_eq_net_stop hb hdet hc]
            refine ⟨fun cs' h' => by simp at h', fun ret h' => ?_⟩
            obtain rfl : [terminalMsg cs "network"] = ret := by simpa using h'
            exact ⟨_, rfl⟩
      | LENGTH =>
          rw [askLoop_eq_length hb hdet]
          refine ⟨fun cs' h' => by simp at h', fun ret h' => ?_⟩
          obtain rfl : [terminalMsg cs "length"] = ret := by simpa using h'
          exact ⟨_, rfl⟩
      | GENERIC =>
          rw [askLoop_eq_generic hb hdet]
          refine ⟨fun cs' h' => by simp at h', fun ret h' => ?_⟩
          obtain rfl : [terminalMsg cs "generic"] = ret := by simpa using h'
          exact ⟨_, rfl⟩

/-- C10: assuming the automation driver's `send_message` returns a list
of strings on every attempt, every list returned by `BrowserSession.ask`
is non-empty: a success returns the (necessarily non-empty) chunk list,
and every terminal-error return is a one-element list whose element
begins with `error: `. -/
theorem claim_c10 (beh : Nat → AttemptOutcome)
    (h : ∀ i, ∃ cs, beh i = AttemptOutcome.chunks cs) (mr : Nat) (p : String)
    (m : Option String) :
    (∀ cs, (Session.ask beh mr p m).1 = AskOutcome.success cs → cs ≠ []) ∧
    (∀ ret, (Session.ask beh mr p m).1 = AskOutcome.errorReturn ret →
      ∃ msg, ret = ["error: " ++ msg]) :=
  askLoop_shape beh h mr p m (mr - 0) 0 none (by omega)

theorem claim_c10_witness :
    (∀ cs, (Session.ask (fun _ => AttemptOutcome.chunks ["hi there"]) 0 "p" none).1
      = AskOutcome.success cs → cs ≠ []) ∧
    (∀ ret, (Session.ask (fun _ => AttemptOutcome.chunks ["hi there"]) 0 "p" none).1
      = AskOutcome.errorReturn ret → ∃ msg, ret = ["error: " ++ msg]) :=
  claim_c10 (fun _ => AttemptOutcome.chunks ["hi there"])
    (fun _ => ⟨["hi there"], rfl⟩) 0 "p" none

end Session

namespace Pool

/-- C1: contrary to the claim, `BrowserSessionPool.ask` cannot complete
at all: it forwards three positional arguments `(prompt, model,
timeout_seconds)` to `BrowserSession.ask`, which accepts at most two
(`prompt`, `model`) and has no `timeout_seconds` parameter, so every call
raises `TypeError` and no timeout bounds any part of the ask call. -/
theorem claim_c1_divergence (beh : Nat → Session.AttemptOutcome) (maxRetries : Nat)
    (browserId prompt : String) (model : Option String) (timeoutSeconds : Nat) :
    poolAsk beh maxRetries browserId prompt model timeoutSeconds = PoolAskResult.typeError := rfl

end Pool

namespace Detector

open Errors

lemma streamStep_completed_inv {settle now : Nat} {st : DetectorState} {o : TickObs}
    (h : streamStep settle now st o = StepResult.completed) :
    o.errorVisible = false ∧ o.busy = false ∧
    pyEndsWith o.snapshot CURSOR_MARK = false ∧
    pyStrip o.snapshot ≠ "" ∧ o.snapshot = st.lastSnapshot ∧
    settle ≤ now - st.stableSince := by
  unfold streamStep at h
  split_ifs at h with h1 h2 h3 h4 h5
  simp only [Bool.or_eq_true, not_or, Bool.not_eq_true, bne_eq_false_iff_eq] at h4
  exact ⟨by simpa using h1, h4.1.1, h4.1.2, h3, h4.2, h5⟩

end Detector

namespace Detector

open Errors

/-- C7: the `_wait_stream_finished` polling loop never declares
completion on any trace whose every observation has the busy indicator
(stop button) present, no matter how long the snapshot has been stable;
and a single step declares completion only when the busy indicator is
absent, no error bubble is visible, no trailing cursor mark is present,
the stripped snapshot is non-empty, the snapshot equals the previous one,
and it has been stable for at least the settle duration. -/
theorem claim_c7 :
    (∀ (settle : Nat) (st : DetectorState) (trace : List (Nat × TickObs)),
      (∀ p ∈ trace, p.2.busy = true) →
      runStreamWait settle st trace ≠ WaitOutcome.completed) ∧
    (∀ (settle now : Nat) (st : DetectorState) (o : TickObs),
      streamStep settle now st o = StepResult.completed →
      o.busy = false ∧ o.errorVisible = false ∧
      pyEndsWith o.snapshot CURSOR_MARK = false ∧
      pyStrip o.snapshot ≠ "" ∧ o.snapshot = st.lastSnapshot ∧
      settle ≤ now - st.stableSince) := by
  constructor
  · intro settle st trace hbusy
    induction trace generalizing st with
    | nil => simp [runStreamWait]
    | cons p rest ih =>
        obtain ⟨now, o⟩ := p
        have hb : o.busy = true := hbusy (now, o) (by simp)
        simp only [runStreamWait]
        cases hstep : streamStep settle now st o with
        | errorAbort => simp
        | completed =>
            have := (streamStep_completed_inv hstep).2.1
            rw [hb] at this
            exact absurd this (by simp)
        | keepPolling st2 => exact ih st2 (fun q hq => hbusy q (List.mem_cons_of_mem _ hq))
  · intro settle now st o h
    obtain ⟨he, hb, hc, hs, hl, ht⟩ := streamStep_completed_inv h
    exact ⟨hb, he, hc, hs, hl, ht⟩

theorem claim_c7_witness :
    ((∀ p ∈ [((10 : Nat), TickObs.mk false true false "hi")], p.2.busy = true) ∧
      runStreamWait 2 ⟨"hi", 0⟩ [((10 : Nat), TickObs.mk false true false "hi")] ≠
        WaitOutcome.completed) ∧
    (streamStep 2 3 ⟨"done", 0⟩ (TickObs.mk false false false "done") =
        StepResult.completed ∧
      (TickObs.mk false false false "done").busy = false ∧
      2 ≤ 3 - (DetectorState.mk "done" 0).stableSince) :=
  ⟨⟨by decide, claim_c7.1 2 ⟨"hi", 0⟩ [((10 : Nat), TickObs.mk false true false "hi")] (by decide)⟩,
   by decide,
   (claim_c7.2 2 3 ⟨"done", 0⟩ (TickObs.mk false false false "done") (by decide)).1,
   (claim_c7.2 2 3 ⟨"done", 0⟩ (TickObs.mk false false false "done") (by decide)).2.2.2.2.2⟩

end Detector

namespace Backend

lemma pollStep_ok_none {mapping : List (String × Node)} (hlast : mapping.getLast? = none) :
    pollStep (Except.ok mapping) = PollDecision.keepPolling := by
  simp only [pollStep, hlast]

lemma pollStep_ok_some {mapping : List (String × Node)} {e : String × Node}
    (hlast : mapping.getLast? = some e) :
    pollStep (Except.ok mapping) =
      (if (nodeMsg e.2).status ≠ some "finished_successfully" then PollDecision.keepPolling
       else if (nodeMsg e.2).role = some "assistant" ∧ contentText (nodeMsg e.2) ≠ "" then
         PollDecision.done (contentText (nodeMsg e.2))
       else PollDecision.keepPolling) := by
  simp only [pollStep, hlast]

lemma pollStep_done_inv {f : Except Unit (List (String × Node))} {t : String}
    (h : pollStep f = PollDecision.done t) :
    ∃ mapping e, f = Except.ok mapping ∧ mapping.getLast? = some e ∧
      (nodeMsg e.2).status = some "finished_successfully" ∧
      (nodeMsg e.2).role = some "assistant" ∧
      contentText (nodeMsg e.2) = t ∧ t ≠ "" := by
  cases f with
  | error u => exact absurd h (by simp [pollStep])
  | ok mapping =>
      cases hlast : mapping.getLast? with
      | none =>
          rw [pollStep_ok_none hlast] at h
          exact absurd h (by simp)
      | some e =>
          rw [pollStep_ok_some hlast] at h
          split_ifs at h with h1 h2
          obtain ⟨hrole, hct⟩ := h2
          have hstatus : (nodeMsg e.2).status = some "finished_successfully" := by
            by_contra hne
            exact h1 hne
          have ht : contentText (nodeMsg e.2) = t := by
            injection h
          exact ⟨mapping, e, rfl, hlast, hstatus, hrole, ht, ht ▸ hct⟩

/-- C8: a conversation state whose newest mapping node carries
`content_type == "thoughts"` makes the poll keep waiting (its extracted
content is empty) even if its status is `finished_successfully`; and
`wait_for_completion` returns a text only when some fetched state's
newest node has status `finished_successfully`, assistant author role,
and non-empty extracted content equal to the returned text. -/
theorem claim_c8 :
    (∀ (mapping : List (String × Node)) (e : String × Node),
      mapping.getLast? = some e →
      (nodeMsg e.2).content = some MsgContent.thoughts →
      pollStep (Except.ok mapping) = PollDecision.keepPolling) ∧
    (∀ (fetches : List (Except Unit (List (String × Node)))) (t : String),
      wait_for_completion fetches = some t →
      ∃ mapping e, Except.ok mapping ∈ fetches ∧ mapping.getLast? = some e ∧
        (nodeMsg e.2).status = some "finished_successfully" ∧
        (nodeMsg e.2).role = some "assistant" ∧
        contentText (nodeMsg e.2) = t ∧ t ≠ "") := by
  constructor
  · intro mapping e hlast hth
    have hct : contentText (nodeMsg e.2) = "" := by
      unfold contentText
      rw [hth]
    rw [pollStep_ok_some hlast]
    by_cases h1 : (nodeMsg e.2).status ≠ some "finished_successfully"
    · rw [if_pos h1]
    · rw [if_neg h1, if_neg (by rw [hct]; simp)]
  · intro fetches t hw
    induction fetches with
    | nil => exact absurd hw (by simp [wait_for_completion])
    | cons f rest ih =>
        unfold wait_for_completion at hw
        cases hstep : pollStep f with
        | done t' =>
            rw [hstep] at hw
            have ht : t' = t := by simpa using hw
            subst ht
            obtain ⟨mapping, e, rfl, hlast, hs, hr, hct, hne⟩ := pollStep_done_inv hstep
            exact ⟨mapping, e, List.mem_cons_self _ _, hlast, hs, hr, hct, hne⟩
        | keepPolling =>
            rw [hstep] at hw
            obtain ⟨mapping, e, hmem, rest'⟩ := ih hw
            exact ⟨mapping, e, List.mem_cons_of_mem _ hmem, rest'⟩

theorem claim_c8_witness :
    (sampleThoughtsMapping.getLast? = some ("n1", Node.mk (some (Message.mk
        (some "assistant") (some "finished_successfully") (some MsgContent.thoughts)))) ∧
      pollStep (Except.ok sampleThoughtsMapping) = PollDecision.keepPolling) ∧
    (wait_for_completion sampleFetches = some "hello" ∧
      ∃ mapping e, Except.ok mapping ∈ sampleFetches ∧ mapping.getLast? = some e ∧
        (nodeMsg e.2).status = some "finished_successfully" ∧
        (nodeMsg e.2).role = some "assistant" ∧
        contentText (nodeMsg e.2) = "hello" ∧ ("hello" : String) ≠ "") :=
  ⟨⟨rfl, claim_c8.1 sampleThoughtsMapping _ rfl rfl⟩,
   ⟨by decide, claim_c8.2 sampleFetches "hello" (by decide)⟩⟩

end Backend

namespace Pool

lemma get?_set_cases {l : List TPC} {i j : Nat} {v x w : TPC}
    (hi : l.get? i = some w) (h : (l.set i v).get? j = some x) :
    (j = i ∧ x = v) ∨ (j ≠ i ∧ l.get? j = some x) := by
  by_cases hji : j = i
  · subst hji
    have hlen : j < l.length := (List.get?_eq_some.mp hi).1
    rw [List.get?_set_eq_of_lt _ hlen] at h
    exact Or.inl ⟨rfl, (Option.some.injEq _ _).mp h.symm⟩
  · rw [List.get?_set_ne _ _ (Ne.symm hji)] at h
    exact Or.inr ⟨hji, h⟩

lemma poolStep_inv {st st' : PoolState} (h : PoolStep st st') (inv : PoolInv st) :
    PoolInv st' := by
  cases h with
  | fastPath i s hpc hsess =>
      refine ⟨?_, ?_, ?_, ?_, ?_⟩
      · intro j hj
        rcases hj with hj | hj | hj <;>
          rcases get?_set_cases hpc hj with ⟨rfl, hx⟩ | ⟨hne, hold⟩ <;>
          first
            | cases hx
            | exact inv.lockOwner j (by tauto)
      · intro j hj
        rcases get?_set_cases hpc hj with ⟨rfl, hx⟩ | ⟨hne, hold⟩
        · cases hx
        · exact inv.creatingNone j hold
      · exact inv.sessNone
      · exact inv.sessSome
      · intro j s' hj
        rcases get?_set_cases hpc hj with ⟨rfl, hx⟩ | ⟨hne, hold⟩
        · cases hx
        · exact inv.doneSess j s' hold
  | slowEnter i hpc hsess =>
      refine ⟨?_, ?_, ?_, ?_, ?_⟩
      · intro j hj
        rcases hj with hj | hj | hj <;>
          rcases get?_set_cases hpc hj with ⟨rfl, hx⟩ | ⟨hne, hold⟩ <;>
          first
            | cases hx
            | exact inv.lockOwner j (by tauto)
      · intro j hj
        rcases get?_set_cases hpc hj with ⟨rfl, hx⟩ | ⟨hne, hold⟩
        · cases hx
        · exact inv.creatingNone j hold
      · exact inv.sessNone
      · exact inv.sessSome
      · intro j s' hj
        rcases get?_set_cases hpc hj with ⟨rfl, hx⟩ | ⟨hne, hold⟩
        · cases hx
        · exact inv.doneSess j s' hold
  | acquire i hpc hlock =>
      refine ⟨?_, ?_, ?_, ?_, ?_⟩
      · intro j hj
        rcases hj with hj | hj | hj <;>
          rcases get?_set_cases hpc hj with ⟨rfl, hx⟩ | ⟨hne, hold⟩
        · rfl
        · exact absurd (inv.lockOwner j (Or.inl hold)) (by rw [hlock]; simp)
        · cases hx
        · exact absurd (inv.lockOwner j (Or.inr (Or.inl hold))) (by rw [hlock]; simp)
        · cases hx
        · exact absurd (inv.lockOwner j (Or.inr (Or.inr hold))) (by rw [hlock]; simp)
      · intro j hj
        rcases get?_set_cases hpc hj with ⟨rfl, hx⟩ | ⟨hne, hold⟩
        · cases hx
        · exact inv.creatingNone j hold
      · exact inv.sessNone
      · exact inv.sessSome
      · intro j s' hj
        rcases get?_set_cases hpc hj with ⟨rfl, hx⟩ | ⟨hne, hold⟩
        · cases hx
        · exact inv.doneSess j s' hold
  | recheckNone i hpc hlock hsess =>
      refine ⟨?_, ?_, ?_, ?_, ?_⟩
      · intro j hj
        rcases hj with hj | hj | hj <;>
          rcases get?_set_cases hpc hj with ⟨rfl, hx⟩ | ⟨hne, hold⟩
        · cases hx
        · exact inv.lockOwner j (Or.inl hold)
        · exact hlock
        · exact inv.lockOwner j (Or.inr (Or.inl hold))
        · cases hx
        · exact inv.lockOwner j (Or.inr (Or.inr hold))
      · intro j hj
        exact hsess
      · exact inv.sessNone
      · exact inv.sessSome
      · intro j s' hj
        rcases get?_set_cases hpc hj with ⟨rfl, hx⟩ | ⟨hne, hold⟩
        · cases hx
        · exact inv.doneSess j s' hold
  | recheckSome i s hpc hlock hsess =>
      refine ⟨?_, ?_, ?_, ?_, ?_⟩
      · intro j hj
        rcases hj with hj | hj | hj <;>
          rcases get?_set_cases hpc hj with ⟨rfl, hx⟩ | ⟨hne, hold⟩
        · cases hx
        · exact inv.lockOwner j (Or.inl hold)
        · cases hx
        · exact inv.lockOwner j (Or.inr (Or.inl hold))
        · exact hlock
        · exact inv.lockOwner j (Or.inr (Or.inr hold))
      · intro j hj
        rcases get?_set_cases hpc hj with ⟨rfl, hx⟩ | ⟨hne, hold⟩
        · cases hx
        · exact absurd hsess (by rw [inv.creatingNone j hold]; simp)
      · exact inv.sessNone
      · exact inv.sessSome
      · intro j s' hj
        rcases get?_set_cases hpc hj with ⟨rfl, hx⟩ | ⟨hne, hold⟩
        · cases hx
        · exact inv.doneSess j s' hold
  | construct i hpc hlock =>
      have hsess : st.session = none := inv.creatingNone i hpc
      have hcon : st.constructions = 0 := inv.sessNone hsess
      refine ⟨?_, ?_, ?_, ?_, ?_⟩
      · intro j hj
        rcases hj with hj | hj | hj <;>
          rcases get?_set_cases hpc hj with ⟨rfl, hx⟩ | ⟨hne, hold⟩
        · cases hx
        · exact inv.lockOwner j (Or.inl hold)
        · cases hx
        · exact inv.lockOwner j (Or.inr (Or.inl hold))
        · exact hlock
        · exact inv.lockOwner j (Or.inr (Or.inr hold))
      · intro j hj
        rcases get?_set_cases hpc hj with ⟨rfl, hx⟩ | ⟨hne, hold⟩
        · cases hx
        · exact absurd (inv.lockOwner j (Or.inr (Or.inl hold)) ▸ hlock)
            (by intro hh; exact hne (by injection hh))
      · intro hh
        cases hh
      · intro s' hs'
        have : s' = st.constructions := by injection hs' with hh; exact hh.symm
        subst this
        exact ⟨hcon, by dsimp only; omega⟩
      · intro j s' hj
        rcases get?_set_cases hpc hj with ⟨rfl, hx⟩ | ⟨hne, hold⟩
        · cases hx
        · exact absurd (inv.doneSess j s' hold) (by rw [hsess]; simp)
  | release i hpc hlock =>
      refine ⟨?_, ?_, ?_, ?_, ?_⟩
      · intro j hj
        rcases hj with hj | hj | hj <;>
          rcases get?_set_cases hpc hj with ⟨rfl, hx⟩ | ⟨hne, hold⟩
        · cases hx
        · exact absurd (inv.lockOwner j (Or.inl hold) ▸ hlock)
            (by intro hh; exact hne (by injection hh))
        · cases hx
        · exact absurd (inv.lockOwner j (Or.inr (Or.inl hold)) ▸ hlock)
            (by intro hh; exact hne (by injection hh))
        · cases hx
        · exact absurd (inv.lockOwner j (Or.inr (Or.inr hold)) ▸ hlock)
            (by intro hh; exact hne (by injection hh))
      · intro j hj
        rcases get?_set_cases hpc hj with ⟨rfl, hx⟩ | ⟨hne, hold⟩
        · cases hx
        · exact inv.creatingNone j hold
      · exact inv.sessNone
      · exact inv.sessSome
      · intro j s' hj
        rcases get?_set_cases hpc hj with ⟨rfl, hx⟩ | ⟨hne, hold⟩
        · cases hx
        · exact inv.doneSess j s' hold
  | ret i s hpc hsess =>
      refine ⟨?_, ?_, ?_, ?_, ?_⟩
      · intro j hj
        rcases hj with hj | hj | hj <;>
          rcases get?_set_cases hpc hj with ⟨rfl, hx⟩ | ⟨hne, hold⟩ <;>
          first
            | cases hx
            | exact inv.lockOwner j (by tauto)
      · intro j hj
        rcases get?_set_cases hpc hj with ⟨rfl, hx⟩ | ⟨hne, hold⟩
        · cases hx
        · exact inv.creatingNone j hold
      · exact inv.sessNone
      · exact inv.sessSome
      · intro j s' hj
        rcases get?_set_cases hpc hj with ⟨rfl, hx⟩ | ⟨hne, hold⟩
        · cases hx
          exact hsess
        · exact inv.doneSess j s' hold

lemma initState_inv (n : Nat) : PoolInv (initState n) := by
  have hrep : ∀ i x, (List.replicate n TPC.start).get? i = some x → x = TPC.start :=
    fun i x h => List.eq_of_mem_replicate (List.get?_mem h)
  refine ⟨?_, ?_, ?_, ?_, ?_⟩
  · intro j hj
    rcases hj with hj | hj | hj <;> cases hrep j _ hj
  · intro j hj
    cases hrep j _ hj
  · intro hh
    rfl
  · intro s hs
    cases hs
  · intro j s hj
    cases hrep j _ hj

lemma reachable_inv {n : Nat} {st : PoolState} (h : Reachable n st) : PoolInv st := by
  unfold Reachable at h
  induction h with
  | refl => exact initState_inv n
  | tail hsteps hstep ih => exact poolStep_inv hstep ih

end Pool

namespace Pool

/-- C9: in the interleaving model of `_ensure_session`, every reachable
state of `n ≥ 1` concurrent first-use callers in which all callers have
finished has exactly one `BrowserSession` construction, and all callers
were delegated to that one session. -/
theorem claim_c9 (n : Nat) (st : PoolState) (hn : 0 < n) (hr : Reachable n st)
    (hdone : ∀ i, i < n → ∃ s, st.threads.get? i = some (TPC.done s)) :
    st.constructions = 1 ∧
    (∀ i j si sj, st.threads.get? i = some (TPC.done si) →
      st.threads.get? j = some (TPC.done sj) → si = sj) := by
  have inv := reachable_inv hr
  obtain ⟨s0, h0⟩ := hdone 0 hn
  obtain ⟨hs0, hc⟩ := inv.sessSome s0 (inv.doneSess 0 s0 h0)
  refine ⟨hc, fun i j si sj hi hj => ?_⟩
  have hsi := inv.doneSess i si hi
  have hsj := inv.doneSess j sj hj
  exact Option.some_injective _ (hsi.symm.trans hsj)

theorem claim_c9_witness :
    (0 : Nat) < 2 ∧
    Reachable 2 finalPoolState ∧
    (∀ i, i < 2 → ∃ s, finalPoolState.threads.get? i = some (TPC.done s)) ∧
    (finalPoolState.constructions = 1 ∧
      ∀ i j si sj, finalPoolState.threads.get? i = some (TPC.done si) →
        finalPoolState.threads.get? j = some (TPC.done sj) → si = sj) := by
  have hreach : Reachable 2 finalPoolState := by
    refine Relation.ReflTransGen.head (PoolStep.slowEnter (initState 2) 0 rfl rfl) ?_
    refine Relation.ReflTransGen.head
      (PoolStep.acquire ⟨none, none, 0, [TPC.waiting, TPC.start]⟩ 0 rfl rfl) ?_
    refine Relation.ReflTransGen.head
      (PoolStep.recheckNone ⟨none, some 0, 0, [TPC.locked, TPC.start]⟩ 0 rfl rfl rfl) ?_
    refine Relation.ReflTransGen.head
      (PoolStep.construct ⟨none, some 0, 0, [TPC.creating, TPC.start]⟩ 0 rfl rfl) ?_
    refine Relation.ReflTransGen.head
      (PoolStep.release ⟨some 0, some 0, 1, [TPC.releasing, TPC.start]⟩ 0 rfl rfl) ?_
    refine Relation.ReflTransGen.head
      (PoolStep.ret ⟨some 0, none, 1, [TPC.returned, TPC.start]⟩ 0 0 rfl rfl) ?_
    refine Relation.ReflTransGen.head
      (PoolStep.fastPath ⟨some 0, none, 1, [TPC.done 0, TPC.start]⟩ 1 0 rfl rfl) ?_
    exact Relation.ReflTransGen.single
      (PoolStep.ret ⟨some 0, none, 1, [TPC.done 0, TPC.returned]⟩ 1 0 rfl rfl)
  have hdone : ∀ i, i < 2 → ∃ s, finalPoolState.threads.get? i = some (TPC.done s) :=
    fun i hi => ⟨0, by interval_cases i <;> rfl⟩
  exact ⟨by omega, hreach, hdone, claim_c9 2 finalPoolState (by omega) hreach hdone⟩

end Pool
